import Mathlib

/-!
# Address-space alias analysis (`x86Emulator/asaa.cpp`)

A shallow embedding of the `AddressSpaceAliasAnalysis` pass and the properties
of its three overridden methods: `doInitialization`, `alias` and
`getAdjustedAnalysisPointer`.

Conventions of the embedding:

* The host compiler's classes that the pass only reads (`Type`, `PointerType`,
  `Value`, `Location`, `Module`, `DataLayout`) are plain data in namespace `llvm`.
* Host code that the pass calls but does not define (`AliasAnalysis::alias`, the
  next analysis of the chain, and `InitializeAliasAnalysis`) is a parameter of the
  embedded method.  It is a state transformer over an arbitrary host state `σ`,
  so that "the parent was not consulted" and "no state was changed" are
  expressible: a pure parent is one that returns the state it was given.
* `alias` is embedded twice from the same lines: `alias_` takes the host state as
  a whole, `alias_this` splits the pass object (the receiver, with its members
  and its static `ID`) off that state, for the statements about what the method
  may write.  `alias_this_eq_alias` shows the two agree.
* A `Location` always carries a value: `alias` dereferences `LocA.Ptr` and
  `LocB.Ptr` unconditionally, a null pointer there is outside the method's
  calling convention.
-/

namespace llvm

/-- The host's `AliasResult` enumeration: the three outcomes the specification
lists and the host's `PartialAlias`.  The pass itself only ever names `NoAlias`;
every other value reaches the caller through the parent analysis. -/
inductive AliasResult where
  | NoAlias
  | MayAlias
  | PartialAlias
  | MustAlias
  deriving DecidableEq, Repr

/-- The host's `Type` hierarchy, by type kind.  Only `pointer` carries an
address space (an `unsigned`, which is only ever compared, never computed with). -/
inductive IRType where
  | void
  | floating (bits : Nat)
  | label
  | metadata
  | integer (bits : Nat)
  | function (ret : IRType) (params : List IRType)
  | struct (elements : List IRType)
  | array (element : IRType) (numElements : Nat)
  | pointer (pointee : IRType) (addressSpace : Nat)
  | vector (element : IRType) (numElements : Nat)

/-- The host's `PointerType`: what `dyn_cast<const PointerType>` hands back. -/
structure PointerType where
  pointee : IRType
  addressSpace : Nat

/-- The method `PointerType::getAddressSpace()`. -/
def PointerType.getAddressSpace (PT : PointerType) : Nat :=
  PT.addressSpace

/-- The cast `dyn_cast<const PointerType>(T)`: the pointer type when `T` is one, null
(`none`) for every other kind of type. -/
def dyn_cast_PointerType : IRType → Option PointerType
  | .pointer pointee addressSpace => some ⟨pointee, addressSpace⟩
  | _ => none

/-- The host's `Value`: something with a type (`VTy`) and an identity. -/
structure Value where
  VTy : IRType
  id : Nat

/-- The method `Value::getType()`. -/
def Value.getType (V : Value) : IRType :=
  V.VTy

/-- The host's `AAMDNodes`: the three optional metadata nodes of a location. -/
structure AAMDNodes where
  TBAA : Option Nat
  Scope : Option Nat
  NoAlias : Option Nat

/-- The host's `AliasAnalysis::Location`: the pointer value and the extent and
metadata of the access made through it. -/
structure Location where
  Ptr : Value
  Size : Nat
  AATags : AAMDNodes

/-- The host's `DataLayout`, identified by its string representation. -/
structure DataLayout where
  StringRepresentation : String

/-- The host's `Module`, as far as the pass reads it. -/
structure Module where
  ModuleID : String
  DL : DataLayout

/-- The method `Module::getDataLayout()`. -/
def Module.getDataLayout (m : Module) : DataLayout :=
  m.DL

/-- An `AnalysisID` is the address of a pass's static `ID` member. -/
abbrev AnalysisID := Nat

end llvm

namespace AddressSpaceAliasAnalysis

open llvm

/-- An alias query of the host's chain (`AliasAnalysis::alias`): it answers for
two locations and may read and write the host state `σ` on the way. -/
abbrev AliasQuery (σ : Type) := Location → Location → σ → AliasResult × σ

/-- The method `AddressSpaceAliasAnalysis::doInitialization(Module& m)`: hands the
pass object `this` and the module's data layout to the host's
`InitializeAliasAnalysis` and returns `true`. -/
def doInitialization {σ : Type} (InitializeAliasAnalysis : Nat → DataLayout → σ → σ)
    (this : Nat) (m : Module) (s : σ) : Bool × σ :=
  let s1 := InitializeAliasAnalysis this m.getDataLayout s
  (true, s1)

/-- The method `AddressSpaceAliasAnalysis::alias(LocA, LocB)` (`alias` is reserved in Lean,
hence the underscore), with `parent` standing for the
base-class call `AliasAnalysis::alias` that forwards to the next analysis. -/
def alias_ {σ : Type} (parent : AliasQuery σ) (LocA LocB : Location) (s : σ) :
    AliasResult × σ :=
  let V1 := LocA.Ptr
  let V2 := LocB.Ptr
  let PT1 := dyn_cast_PointerType V1.getType
  let PT2 := dyn_cast_PointerType V2.getType
  match PT1, PT2 with
  | some PT1, some PT2 =>
    if PT1.getAddressSpace ≠ PT2.getAddressSpace then
      (AliasResult.NoAlias, s)
    else
      parent LocA LocB s
  | _, _ => parent LocA LocB s

/-- The two faces under which the pass object can be handed out: as itself (the
most derived object, which starts with its `ImmutablePass` base) or as its
`AliasAnalysis` base subobject. -/
inductive View where
  | self
  | AliasAnalysis
  deriving DecidableEq, Repr

/-- A `void*` as `getAdjustedAnalysisPointer` returns it: null, or a pointer into
the object `object` seen under `view`. -/
inductive AnalysisPointer where
  | null
  | to (object : Nat) (view : View)
  deriving DecidableEq, Repr

/-- The method `AddressSpaceAliasAnalysis::getAdjustedAnalysisPointer(PI)`.  `AliasAnalysis_ID`
is the address `&AliasAnalysis::ID`, `this` names the pass object. -/
def getAdjustedAnalysisPointer (AliasAnalysis_ID : AnalysisID) (this : Nat)
    (PI : AnalysisID) : AnalysisPointer :=
  if PI = AliasAnalysis_ID then
    AnalysisPointer.to this View.AliasAnalysis
  else
    AnalysisPointer.to this View.self

/-- The address-space tag of a location as `alias` reads it: the address space of
the type of the location's value when that type is a pointer type (the
`dyn_cast` succeeds), absent otherwise. -/
def addressSpaceTag (Loc : Location) : Option Nat :=
  (dyn_cast_PointerType Loc.Ptr.getType).map PointerType.getAddressSpace

/-- The state that the non-const method `alias` is handed with its receiver and
could write: the pass's static `ID` (a `char`, `0` at registration) and the
members of the `AliasAnalysis` base that `InitializeAliasAnalysis(this, &DL)`
fills in.
Modelled from the spec: the declaration of the `AliasAnalysis` base class is not
in the source; the object holds the parent-analysis chain link, set once at
initialisation (`AA`, absent before), and the data layout it was initialised
with (`DL`). -/
structure PassObject where
  ID : Nat
  DL : Option DataLayout
  AA : Option Nat

/-- The base-class method `AliasAnalysis::alias` as a method of the pass object:
it is run on the receiver, which it may read (for the chain link) and write, and
on the rest of the host state `σ`. -/
abbrev MemberQuery (σ : Type) :=
  PassObject → Location → Location → σ → AliasResult × PassObject × σ

/-- The method `AddressSpaceAliasAnalysis::alias(LocA, LocB)` once more, with its
receiver `this` explicit: the pass object goes in and comes out next to the
answer, so that a write to a member or to `ID` would show. -/
def alias_this {σ : Type} (AliasAnalysis_alias : MemberQuery σ) (this : PassObject)
    (LocA LocB : Location) (s : σ) : AliasResult × PassObject × σ :=
  let V1 := LocA.Ptr
  let V2 := LocB.Ptr
  let PT1 := dyn_cast_PointerType V1.getType
  let PT2 := dyn_cast_PointerType V2.getType
  match PT1, PT2 with
  | some PT1, some PT2 =>
    if PT1.getAddressSpace ≠ PT2.getAddressSpace then
      (AliasResult.NoAlias, this, s)
    else
      AliasAnalysis_alias this LocA LocB s
  | _, _ => AliasAnalysis_alias this LocA LocB s

/-! ### Sample inputs -/

/-- A one-byte location whose value `id` has type `i8 addrspace(AS)*`. -/
def pointerLoc (AS id : Nat) : Location :=
  ⟨⟨IRType.pointer (IRType.integer 8) AS, id⟩, 1, ⟨none, none, none⟩⟩

/-- A four-byte location whose value `id` has the non-pointer type `i32`. -/
def integerLoc (id : Nat) : Location :=
  ⟨⟨IRType.integer 32, id⟩, 4, ⟨none, none, none⟩⟩

/-- A parent analysis that answers `r` to everything and counts, in the host
state, how many times it has been consulted. -/
def countingParent (r : AliasResult) : AliasQuery Nat :=
  fun _ _ n => (r, n + 1)

/-- A pure parent analysis (it returns the state it was given): accesses of
equal size to the same value must alias, anything else may. -/
def sameValueParent : AliasQuery Nat :=
  fun LocA LocB n =>
    (if LocA.Ptr.id = LocB.Ptr.id ∧ LocA.Size = LocB.Size then AliasResult.MustAlias
      else AliasResult.MayAlias, n)

/-- A pass object after initialisation: chained to analysis `1`, 32-bit layout. -/
def initialisedPass : PassObject :=
  ⟨0, some ⟨"e-p:32:32"⟩, some 1⟩

/-- A pure base-class query: it reads the chain link of the receiver and writes
nothing.  With a link it answers as `sameValueParent`, without one `MayAlias`. -/
def linkedParent : MemberQuery Nat :=
  fun this LocA LocB n =>
    (if this.AA.isSome then (sameValueParent LocA LocB n).1 else AliasResult.MayAlias,
      this, n)

/-- A stand-in for the host's `InitializeAliasAnalysis`: the host state is the
list of passes initialised so far, each with the data layout it was given. -/
def recordLayout : Nat → DataLayout → List (Nat × String) → List (Nat × String) :=
  fun P DL s => (P, DL.StringRepresentation) :: s

/-! ### How `alias` decides -/

theorem addressSpaceTag_eq_some {Loc : Location} {a : Nat} :
    addressSpaceTag Loc = some a ↔
      ∃ PT, dyn_cast_PointerType Loc.Ptr.getType = some PT ∧ PT.getAddressSpace = a := by
  simp [addressSpaceTag]

theorem addressSpaceTag_eq_none {Loc : Location} :
    addressSpaceTag Loc = none ↔ dyn_cast_PointerType Loc.Ptr.getType = none := by
  simp [addressSpaceTag]

/-- The decision of `alias` in terms of the two tags. -/
theorem alias_eq {σ : Type} (parent : AliasQuery σ) (LocA LocB : Location) (s : σ) :
    alias_ parent LocA LocB s =
      match addressSpaceTag LocA, addressSpaceTag LocB with
      | some a, some b => if a ≠ b then (AliasResult.NoAlias, s) else parent LocA LocB s
      | _, _ => parent LocA LocB s := by
  unfold alias_ addressSpaceTag
  dsimp only
  cases dyn_cast_PointerType LocA.Ptr.getType <;>
    cases dyn_cast_PointerType LocB.Ptr.getType <;> rfl

/-- Every query is either cut short with `NoAlias`, leaving the state alone, or
is exactly the parent's. -/
theorem alias_cases {σ : Type} (parent : AliasQuery σ) (LocA LocB : Location) (s : σ) :
    (alias_ parent LocA LocB s = (AliasResult.NoAlias, s) ∧
        ∃ a b, addressSpaceTag LocA = some a ∧ addressSpaceTag LocB = some b ∧ a ≠ b) ∨
      alias_ parent LocA LocB s = parent LocA LocB s := by
  rw [alias_eq]
  cases hA : addressSpaceTag LocA with
  | none => exact Or.inr rfl
  | some a =>
    cases hB : addressSpaceTag LocB with
    | none => exact Or.inr rfl
    | some b =>
      by_cases hab : a = b
      · exact Or.inr (by simp [hab])
      · exact Or.inl ⟨by simp [hab], a, b, rfl, rfl, hab⟩

theorem alias_of_tags_ne {σ : Type} (parent : AliasQuery σ) {LocA LocB : Location} {a b : Nat}
    (hA : addressSpaceTag LocA = some a) (hB : addressSpaceTag LocB = some b) (hab : a ≠ b)
    (s : σ) : alias_ parent LocA LocB s = (AliasResult.NoAlias, s) := by
  rw [alias_eq, hA, hB]
  simp [hab]

theorem alias_of_tags_eq {σ : Type} (parent : AliasQuery σ) {LocA LocB : Location} {a : Nat}
    (hA : addressSpaceTag LocA = some a) (hB : addressSpaceTag LocB = some a)
    (s : σ) : alias_ parent LocA LocB s = parent LocA LocB s := by
  rw [alias_eq, hA, hB]
  simp

theorem alias_of_tag_none {σ : Type} (parent : AliasQuery σ) {LocA LocB : Location}
    (h : addressSpaceTag LocA = none ∨ addressSpaceTag LocB = none)
    (s : σ) : alias_ parent LocA LocB s = parent LocA LocB s := by
  rw [alias_eq]
  rcases h with h | h
  · rw [h]
  · rw [h]
    cases addressSpaceTag LocA <;> rfl

theorem addressSpaceTag_of_pointer {Loc : Location} {T : IRType} {a : Nat}
    (h : Loc.Ptr.getType = IRType.pointer T a) : addressSpaceTag Loc = some a := by
  simp [addressSpaceTag, h, dyn_cast_PointerType, PointerType.getAddressSpace]

/-! ### The address-space rule -/

/-- C1: two locations whose values have pointer types in different address
spaces do not alias, whatever the parent analysis is and whatever it would have
answered; the parent is not run (the host state comes back untouched). -/
theorem alias_different_address_spaces {σ : Type} (parent : AliasQuery σ)
    (LocA LocB : Location) (TA TB : IRType) (a b : Nat)
    (hA : LocA.Ptr.getType = IRType.pointer TA a)
    (hB : LocB.Ptr.getType = IRType.pointer TB b)
    (hab : a ≠ b) (s : σ) :
    alias_ parent LocA LocB s = (AliasResult.NoAlias, s) :=
  alias_of_tags_ne parent (addressSpaceTag_of_pointer hA) (addressSpaceTag_of_pointer hB) hab s

theorem alias_different_address_spaces_witness :
    (1 : Nat) ≠ 2 ∧
      alias_ (countingParent AliasResult.MustAlias) (pointerLoc 1 10) (pointerLoc 2 11) 0 =
        (AliasResult.NoAlias, 0) :=
  ⟨by decide,
    alias_different_address_spaces (countingParent AliasResult.MustAlias)
      (pointerLoc 1 10) (pointerLoc 2 11) (IRType.integer 8) (IRType.integer 8) 1 2
      rfl rfl (by decide) 0⟩

/-- C2: two locations whose values have pointer types in the same address space
are answered by the parent, on the unchanged pair: result and state are the
parent's. -/
theorem alias_same_address_space {σ : Type} (parent : AliasQuery σ)
    (LocA LocB : Location) (TA TB : IRType) (a : Nat)
    (hA : LocA.Ptr.getType = IRType.pointer TA a)
    (hB : LocB.Ptr.getType = IRType.pointer TB a) (s : σ) :
    alias_ parent LocA LocB s = parent LocA LocB s :=
  alias_of_tags_eq parent (addressSpaceTag_of_pointer hA) (addressSpaceTag_of_pointer hB) s

theorem alias_same_address_space_witness :
    alias_ (countingParent AliasResult.MayAlias) (pointerLoc 1 10) (pointerLoc 1 11) 0 =
        countingParent AliasResult.MayAlias (pointerLoc 1 10) (pointerLoc 1 11) 0 ∧
      (alias_ (countingParent AliasResult.MayAlias) (pointerLoc 1 10) (pointerLoc 1 11) 0).1 =
        AliasResult.MayAlias := by
  have h := alias_same_address_space (countingParent AliasResult.MayAlias)
    (pointerLoc 1 10) (pointerLoc 1 11) (IRType.integer 8) (IRType.integer 8) 1 rfl rfl 0
  exact ⟨h, by rw [h]; rfl⟩

/-- C3: when the value of at least one of the two locations is not of pointer
type (the `dyn_cast` gives null), the query is the parent's, whatever the other
location is. -/
theorem alias_non_pointer {σ : Type} (parent : AliasQuery σ) (LocA LocB : Location)
    (h : dyn_cast_PointerType LocA.Ptr.getType = none ∨
      dyn_cast_PointerType LocB.Ptr.getType = none) (s : σ) :
    alias_ parent LocA LocB s = parent LocA LocB s :=
  alias_of_tag_none parent
    (h.imp addressSpaceTag_eq_none.mpr addressSpaceTag_eq_none.mpr) s

theorem alias_non_pointer_witness :
    alias_ (countingParent AliasResult.MustAlias) (pointerLoc 3 10) (integerLoc 11) 0 =
        countingParent AliasResult.MustAlias (pointerLoc 3 10) (integerLoc 11) 0 ∧
      alias_ (countingParent AliasResult.MustAlias) (pointerLoc 3 10) (integerLoc 11) 0 =
        (AliasResult.MustAlias, 1) := by
  have h := alias_non_pointer (countingParent AliasResult.MustAlias)
    (pointerLoc 3 10) (integerLoc 11) (Or.inr rfl) 0
  exact ⟨h, by rw [h]; rfl⟩

/-- C4: a `NoAlias` of the parent is never lost: if the parent answers `NoAlias`
for the pair, so does `alias`. -/
theorem alias_keeps_parent_NoAlias {σ : Type} (parent : AliasQuery σ)
    (LocA LocB : Location) (s : σ)
    (h : (parent LocA LocB s).1 = AliasResult.NoAlias) :
    (alias_ parent LocA LocB s).1 = AliasResult.NoAlias := by
  rcases alias_cases parent LocA LocB s with ⟨h1, _⟩ | h1
  · rw [h1]
  · rw [h1]; exact h

theorem alias_keeps_parent_NoAlias_witness :
    (alias_ (countingParent AliasResult.NoAlias) (pointerLoc 1 10) (pointerLoc 1 11) 0).1 =
        AliasResult.NoAlias ∧
      (alias_ (countingParent AliasResult.NoAlias) (integerLoc 10) (pointerLoc 2 11) 0).1 =
        AliasResult.NoAlias :=
  ⟨alias_keeps_parent_NoAlias (countingParent AliasResult.NoAlias)
      (pointerLoc 1 10) (pointerLoc 1 11) 0 rfl,
    alias_keeps_parent_NoAlias (countingParent AliasResult.NoAlias)
      (integerLoc 10) (pointerLoc 2 11) 0 rfl⟩

/-- C5, as stated, fails: for two pointers in address spaces 1 and 2 and a
parent answering `MustAlias`, `alias` answers `NoAlias`; the answers differ and
the parent's is not `MayAlias`. -/
theorem alias_changes_MustAlias :
    (alias_ (countingParent AliasResult.MustAlias) (pointerLoc 1 10) (pointerLoc 2 11) 0).1 ≠
        (countingParent AliasResult.MustAlias (pointerLoc 1 10) (pointerLoc 2 11) 0).1 ∧
      ¬ ((countingParent AliasResult.MustAlias (pointerLoc 1 10) (pointerLoc 2 11) 0).1 =
            AliasResult.MayAlias ∧
          (alias_ (countingParent AliasResult.MustAlias) (pointerLoc 1 10) (pointerLoc 2 11) 0).1 =
            AliasResult.NoAlias) := by
  decide

/-- C5, amended: whenever the answer of `alias` differs from the parent's, the
answer of `alias` is `NoAlias`, the parent's is something else (`MayAlias`,
`PartialAlias` or `MustAlias`), and the two values have pointer types in
different address spaces. -/
theorem alias_differs_only_to_NoAlias {σ : Type} (parent : AliasQuery σ)
    (LocA LocB : Location) (s : σ)
    (h : (alias_ parent LocA LocB s).1 ≠ (parent LocA LocB s).1) :
    (alias_ parent LocA LocB s).1 = AliasResult.NoAlias ∧
      (parent LocA LocB s).1 ≠ AliasResult.NoAlias ∧
      ∃ a b, addressSpaceTag LocA = some a ∧ addressSpaceTag LocB = some b ∧ a ≠ b := by
  rcases alias_cases parent LocA LocB s with ⟨h1, hab⟩ | h1
  · rw [h1] at h ⊢
    exact ⟨rfl, fun hp => h hp.symm, hab⟩
  · rw [h1] at h
    exact absurd rfl h

theorem alias_differs_only_to_NoAlias_witness :
    (alias_ (countingParent AliasResult.MayAlias) (pointerLoc 1 10) (pointerLoc 2 11) 0).1 =
        AliasResult.NoAlias ∧
      (countingParent AliasResult.MayAlias (pointerLoc 1 10) (pointerLoc 2 11) 0).1 ≠
        AliasResult.NoAlias ∧
      ∃ a b, addressSpaceTag (pointerLoc 1 10) = some a ∧
        addressSpaceTag (pointerLoc 2 11) = some b ∧ a ≠ b :=
  alias_differs_only_to_NoAlias (countingParent AliasResult.MayAlias)
    (pointerLoc 1 10) (pointerLoc 2 11) 0 (by decide)

/-! ### Purity, initialisation and the analysis pointer -/

/-- The two embeddings of `alias` agree: with the receiver explicit, the method
is `alias_` run on the pair of the pass object and the rest of the state. -/
theorem alias_this_eq_alias {σ : Type} (base : MemberQuery σ) (this : PassObject)
    (LocA LocB : Location) (s : σ) :
    alias_this base this LocA LocB s =
      alias_ (fun A B p => base p.1 A B p.2) LocA LocB (this, s) := by
  unfold alias_this alias_
  rfl

/-- The method writes nothing of its own, whatever the base-class call does: it
either answers `NoAlias` with the receiver and the state as they were, or is
exactly the one base-class call on the same receiver, pair and state. -/
theorem alias_this_cases {σ : Type} (base : MemberQuery σ) (this : PassObject)
    (LocA LocB : Location) (s : σ) :
    alias_this base this LocA LocB s = (AliasResult.NoAlias, this, s) ∨
      alias_this base this LocA LocB s = base this LocA LocB s := by
  rw [alias_this_eq_alias]
  rcases alias_cases (fun A B p => base p.1 A B p.2) LocA LocB (this, s) with ⟨h, _⟩ | h
  · exact Or.inl h
  · exact Or.inr h

/-- C6: the method has no effect of its own: for every base-class call, pure or
not, it either answers `NoAlias` and hands back the pass object and the host
state as they were, or is exactly that one call.  So with a pure parent (a
base-class call that leaves the pass object and the host state as it found
them), a query leaves the pass object (its `ID`, its chain link, its data
layout) and the host state as it found them; asking the same query again on
what the first left behind gives the same answer; and any later query is
answered as if the first had never been made. -/
theorem alias_this_pure {σ : Type} (base : MemberQuery σ)
    (hpure : ∀ this LocA LocB s, (base this LocA LocB s).2 = (this, s))
    (this : PassObject) (LocA LocB LocC LocD : Location) (s : σ) :
    (∀ b : MemberQuery σ,
        alias_this b this LocA LocB s = (AliasResult.NoAlias, this, s) ∨
          alias_this b this LocA LocB s = b this LocA LocB s) ∧
      (alias_this base this LocA LocB s).2 = (this, s) ∧
      alias_this base (alias_this base this LocA LocB s).2.1 LocA LocB
          (alias_this base this LocA LocB s).2.2 =
        alias_this base this LocA LocB s ∧
      alias_this base (alias_this base this LocA LocB s).2.1 LocC LocD
          (alias_this base this LocA LocB s).2.2 =
        alias_this base this LocC LocD s := by
  have h : (alias_this base this LocA LocB s).2 = (this, s) := by
    rcases alias_this_cases base this LocA LocB s with h1 | h1
    · rw [h1]
    · rw [h1]; exact hpure this LocA LocB s
  exact ⟨fun b => alias_this_cases b this LocA LocB s, h, by rw [h], by rw [h]⟩

theorem alias_this_pure_witness :
    (alias_this linkedParent initialisedPass (pointerLoc 1 10) (pointerLoc 1 10) 7).2 =
        (initialisedPass, 7) ∧
      alias_this linkedParent
          (alias_this linkedParent initialisedPass (pointerLoc 1 10) (pointerLoc 1 10) 7).2.1
          (pointerLoc 1 10) (pointerLoc 1 10)
          (alias_this linkedParent initialisedPass (pointerLoc 1 10) (pointerLoc 1 10) 7).2.2 =
        alias_this linkedParent initialisedPass (pointerLoc 1 10) (pointerLoc 1 10) 7 ∧
      alias_this linkedParent
          (alias_this linkedParent initialisedPass (pointerLoc 1 10) (pointerLoc 1 10) 7).2.1
          (pointerLoc 1 10) (pointerLoc 2 11)
          (alias_this linkedParent initialisedPass (pointerLoc 1 10) (pointerLoc 1 10) 7).2.2 =
        alias_this linkedParent initialisedPass (pointerLoc 1 10) (pointerLoc 2 11) 7 :=
  (alias_this_pure linkedParent (fun _ _ _ _ => rfl) initialisedPass
    (pointerLoc 1 10) (pointerLoc 1 10) (pointerLoc 1 10) (pointerLoc 2 11) 7).2

/-- C7: `doInitialization` returns `true` for every module, every host
initialiser and every state it is run in; its effect on the state is the
initialiser's, run on the module's data layout. -/
theorem doInitialization_true {σ : Type}
    (InitializeAliasAnalysis : Nat → DataLayout → σ → σ) (this : Nat) (m : Module) (s : σ) :
    (doInitialization InitializeAliasAnalysis this m s).1 = true ∧
      (doInitialization InitializeAliasAnalysis this m s).2 =
        InitializeAliasAnalysis this m.getDataLayout s :=
  ⟨rfl, rfl⟩

/-- The initialisation run on a module with a 32-bit layout, from a fresh state. -/
theorem doInitialization_recordLayout :
    doInitialization recordLayout 1 ⟨"module", ⟨"e-p:32:32"⟩⟩ [] =
      (true, [(1, "e-p:32:32")]) :=
  rfl

/-- C8: `getAdjustedAnalysisPointer` never returns null and always points into
the pass object itself: under its `AliasAnalysis` view for the id of
`AliasAnalysis`, as the object itself for every other id (its own included). -/
theorem getAdjustedAnalysisPointer_this (AliasAnalysis_ID : AnalysisID) (this : Nat)
    (PI : AnalysisID) :
    getAdjustedAnalysisPointer AliasAnalysis_ID this PI ≠ AnalysisPointer.null ∧
      (∃ v, getAdjustedAnalysisPointer AliasAnalysis_ID this PI = AnalysisPointer.to this v) ∧
      getAdjustedAnalysisPointer AliasAnalysis_ID this AliasAnalysis_ID =
        AnalysisPointer.to this View.AliasAnalysis ∧
      (PI ≠ AliasAnalysis_ID →
        getAdjustedAnalysisPointer AliasAnalysis_ID this PI =
          AnalysisPointer.to this View.self) := by
  unfold getAdjustedAnalysisPointer
  by_cases h : PI = AliasAnalysis_ID
  · simp [h]
  · simp [h]

theorem getAdjustedAnalysisPointer_this_witness :
    getAdjustedAnalysisPointer 4096 1 4100 = AnalysisPointer.to 1 View.self ∧
      getAdjustedAnalysisPointer 4096 1 4096 = AnalysisPointer.to 1 View.AliasAnalysis :=
  ⟨(getAdjustedAnalysisPointer_this 4096 1 4100).2.2.2 (by decide),
    (getAdjustedAnalysisPointer_this 4096 1 4096).2.2.1⟩

/-! ### Symmetry and address space 0 -/

/-- C9: the rule cuts the query `(A, B)` short (answers `NoAlias` without running
the parent, for every parent) exactly when it cuts `(B, A)` short; and for a
symmetric parent, `alias` is symmetric. -/
theorem alias_symmetric {σ : Type} (parent : AliasQuery σ)
    (hsym : ∀ LocA LocB s, parent LocA LocB s = parent LocB LocA s)
    (LocA LocB : Location) (s : σ) :
    ((∀ (p : AliasQuery σ) (t : σ), alias_ p LocA LocB t = (AliasResult.NoAlias, t)) ↔
        (∀ (p : AliasQuery σ) (t : σ), alias_ p LocB LocA t = (AliasResult.NoAlias, t))) ∧
      alias_ parent LocA LocB s = alias_ parent LocB LocA s := by
  have key : ∀ (X Y : Location),
      (∀ (p : AliasQuery σ) (t : σ), alias_ p X Y t = (AliasResult.NoAlias, t)) →
      ∀ (p : AliasQuery σ) (t : σ), alias_ p Y X t = (AliasResult.NoAlias, t) := by
    intro X Y hXY p t
    have h0 := hXY (fun _ _ u => (AliasResult.MayAlias, u)) t
    rcases alias_cases (fun _ _ u => (AliasResult.MayAlias, u)) X Y t with ⟨_, a, b, hX, hY, hab⟩ | h1
    · exact alias_of_tags_ne p hY hX (Ne.symm hab) t
    · rw [h1] at h0
      simp at h0
  refine ⟨⟨key LocA LocB, key LocB LocA⟩, ?_⟩
  rcases alias_cases parent LocA LocB s with ⟨h1, a, b, hA, hB, hab⟩ | h1
  · rw [h1, alias_of_tags_ne parent hB hA (Ne.symm hab) s]
  · rcases alias_cases parent LocB LocA s with ⟨h2, b, a, hB, hA, hba⟩ | h2
    · rw [h2, alias_of_tags_ne parent hA hB (Ne.symm hba) s]
    · rw [h1, h2, hsym]

theorem alias_symmetric_witness :
    alias_ sameValueParent (pointerLoc 1 10) (pointerLoc 1 11) 0 =
      alias_ sameValueParent (pointerLoc 1 11) (pointerLoc 1 10) 0 :=
  (alias_symmetric sameValueParent
    (fun LocA LocB s => by simp [sameValueParent, eq_comm])
    (pointerLoc 1 10) (pointerLoc 1 11) 0).2

/-- C10: address space 0 is an address space like any other: a pointer in address
space 0 and a pointer in an address space `n ≠ 0`, in either order, do not alias,
and the parent is not run. -/
theorem alias_address_space_zero {σ : Type} (parent : AliasQuery σ)
    (LocA LocB : Location) (TA TB : IRType) (n : Nat) (hn : n ≠ 0)
    (hA : LocA.Ptr.getType = IRType.pointer TA 0)
    (hB : LocB.Ptr.getType = IRType.pointer TB n) (s : σ) :
    alias_ parent LocA LocB s = (AliasResult.NoAlias, s) ∧
      alias_ parent LocB LocA s = (AliasResult.NoAlias, s) :=
  ⟨alias_of_tags_ne parent (addressSpaceTag_of_pointer hA) (addressSpaceTag_of_pointer hB)
      (Ne.symm hn) s,
    alias_of_tags_ne parent (addressSpaceTag_of_pointer hB) (addressSpaceTag_of_pointer hA)
      hn s⟩

theorem alias_address_space_zero_witness :
    alias_ (countingParent AliasResult.MustAlias) (pointerLoc 0 10) (pointerLoc 5 11) 0 =
        (AliasResult.NoAlias, 0) ∧
      alias_ (countingParent AliasResult.MustAlias) (pointerLoc 5 11) (pointerLoc 0 10) 0 =
        (AliasResult.NoAlias, 0) :=
  alias_address_space_zero (countingParent AliasResult.MustAlias)
    (pointerLoc 0 10) (pointerLoc 5 11) (IRType.integer 8) (IRType.integer 8) 5
    (by decide) rfl rfl 0

end AddressSpaceAliasAnalysis
